import Mathlib

/-!
Verification of the resource-aware batch execution engine
(`src/utils/batch_processor.py`, with the memory sampler from
`src/utils/memory_manager.py`).

The Python code is shallowly embedded: the `BatchProgress` dataclass becomes a
structure, the checkpoint JSON dict becomes `PyDict` (known fields plus the
list of unknown keys present), the completion loop of `process_batch` becomes a
fold over an explicit completion order (the order in which `as_completed`
yields futures, an arbitrary permutation of the dispatched items), timestamps
(`datetime.now().isoformat()`) become explicit string parameters, and the
memory check becomes an automaton over a trace of samples, each of which is
either a value or a raised exception. Numeric memory quantities (floats in
Python) are modelled as rationals. Runs are modelled without a concurrent
`cancel()` or `pause()` call, so `_cancelled` stays `False` throughout.
-/

namespace PDFBatch

/-- One entry of `failed_items`: the Python dict
`(index, str(item), str(e))` appended on an item failure. -/
structure FailedItem where
  index : Nat
  item : String
  error : String
deriving DecidableEq, Repr

/-- Value of `BatchStatus.PENDING`. -/
def statusPending : String := "pending"

/-- Value of `BatchStatus.RUNNING`. -/
def statusRunning : String := "running"

/-- Value of `BatchStatus.COMPLETED`. -/
def statusCompleted : String := "completed"

/-- Value of `BatchStatus.CANCELLED`. -/
def statusCancelled : String := "cancelled"

/-- The `BatchProgress` dataclass. Field defaults mirror the Python defaults,
so `{}` is `BatchProgress()`. -/
structure BatchProgress where
  total : Nat := 0
  completed : Nat := 0
  success : Nat := 0
  failed : Nat := 0
  skipped : Nat := 0
  start_time : Option String := none
  end_time : Option String := none
  status : String := statusPending
  failed_items : List FailedItem := []
deriving DecidableEq, Repr

/-- Property `BatchProgress.completion_percentage`: `0.0` when `total == 0`, else
`(completed / total) * 100`. Floats are modelled as rationals. -/
def completion_percentage (p : BatchProgress) : ℚ :=
  if p.total = 0 then 0 else ((p.completed : ℚ) / (p.total : ℚ)) * 100

/-- Property `BatchProgress.success_rate`: `0.0` when `completed == 0`, else
`(success / completed) * 100`. -/
def success_rate (p : BatchProgress) : ℚ :=
  if p.completed = 0 then 0 else ((p.success : ℚ) / (p.completed : ℚ)) * 100

/-- A checkpoint JSON object, as `json.load` would deliver it to
`BatchProgress.from_dict`. Each known field is `some v` when the key is
present (with a value of the field type) and `none` when absent;
`extraKeys` lists the keys that are not fields of `BatchProgress`. -/
structure PyDict where
  total : Option Nat := none
  completed : Option Nat := none
  success : Option Nat := none
  failed : Option Nat := none
  skipped : Option Nat := none
  start_time : Option (Option String) := none
  end_time : Option (Option String) := none
  status : Option String := none
  failed_items : Option (List FailedItem) := none
  extraKeys : List String := []
deriving DecidableEq, Repr

/-- The message of the `TypeError` Python raises for an unexpected keyword. -/
def unexpectedKeywordMsg : String := "TypeError: unexpected keyword argument"

/-- Classmethod `BatchProgress.from_dict`, i.e. `cls(**data)`: keyword splatting succeeds
exactly when every key of the dict is a dataclass field (missing fields take
their defaults); any unknown key raises a `TypeError`. -/
def from_dict (d : PyDict) : Except String BatchProgress :=
  if d.extraKeys = [] then
    Except.ok
      { total := d.total.getD 0
        completed := d.completed.getD 0
        success := d.success.getD 0
        failed := d.failed.getD 0
        skipped := d.skipped.getD 0
        start_time := d.start_time.getD none
        end_time := d.end_time.getD none
        status := d.status.getD statusPending
        failed_items := d.failed_items.getD [] }
  else
    Except.error unexpectedKeywordMsg

/-- Method `BatchProgress.to_dict`, i.e. `asdict(self)`: every field present, no
extra keys. -/
def to_dict (p : BatchProgress) : PyDict :=
  { total := some p.total
    completed := some p.completed
    success := some p.success
    failed := some p.failed
    skipped := some p.skipped
    start_time := some p.start_time
    end_time := some p.end_time
    status := some p.status
    failed_items := some p.failed_items
    extraKeys := [] }

/-- The content of the progress file: `none` when the file does not exist,
`some (Except.error ())` when the file exists but reading or `json.load`
fails, `some (Except.ok d)` when it parses to the dict `d`. -/
def CkptFile : Type := Option (Except Unit PyDict)

/-- Method `_load_progress` of BatchProcessor (only reached when the file exists, but
total on all file states): any exception while opening, parsing or running
`from_dict` is caught and the progress is replaced by a fresh
`BatchProgress()`. -/
def load_progress (file : CkptFile) : BatchProgress :=
  match file with
  | some (Except.ok d) =>
    match from_dict d with
    | Except.ok p => p
    | Except.error _ => {}
  | some (Except.error _) => {}
  | none => {}

/-- A write to the filesystem, as performed by a checkpoint save: either a
direct `open(path, mode_w)` overwrite of the target, or a write to a
temporary location followed by a rename into place. -/
inductive FileWrite where
  | direct (path : String) (content : PyDict)
  | viaTempRename (tmpPath : String) (path : String) (content : PyDict)
deriving DecidableEq, Repr

/-- Predicate `isAtomicWrite` names the property the specification asks of checkpoint
writes (write to a temporary location, then rename into place). -/
def isAtomicWrite : FileWrite → Bool
  | FileWrite.direct _ _ => false
  | FileWrite.viaTempRename _ _ _ => true

/-- Method `_save_progress` of BatchProcessor: open the progress file for writing and
`json.dump(self.progress.to_dict(), f)` — a single direct overwrite of the
progress file with the serialized state. -/
def save_progress (progressFile : String) (p : BatchProgress) : FileWrite :=
  FileWrite.direct progressFile (to_dict p)

/-- Constant `TMP_FOLDER` (import-failure fallback value; the claims do not depend on
the concrete path). -/
def TMP_FOLDER : String := "/tmp"

/-- Constant `BATCH_PROGRESS_FILE`, joining `TMP_FOLDER` with the file name `batch_progress.json`. -/
def BATCH_PROGRESS_FILE : String := TMP_FOLDER ++ "/batch_progress.json"

/-- Constant `BATCH_MEMORY_LIMIT_MB` from `src/config/settings.py`. -/
def BATCH_MEMORY_LIMIT_MB : Nat := 2000

/-- Assignment `self.memory_limit_mb = memory_limit_mb or BATCH_MEMORY_LIMIT_MB` in
`BatchProcessor.__init__`: Python treats both `None` and `0` as falsy, so
both select the settings default. -/
def initMemoryLimit (memory_limit_mb : Option Nat) : Nat :=
  match memory_limit_mb with
  | none => BATCH_MEMORY_LIMIT_MB
  | some m => if m = 0 then BATCH_MEMORY_LIMIT_MB else m

/-! ### The memory check (`BatchProcessor._check_memory`)

A call samples `psutil.Process().memory_info().rss / (1024*1024)`; each sample
is `Except.ok m` (a value in MB) or `Except.error ()` (a raised exception).
The call consumes a trace of samples: the first sample is the initial read,
the rest feed the over-limit polling loop. -/

/-- Outcome of one `_check_memory` call, seen from the dispatch gate
(`self._pause_event`, initially set, i.e. open). -/
inductive MemCheckResult where
  /-- Returned without ever clearing the gate. -/
  | noPause
  /-- Cleared the gate, polled until usage dropped to `0.8 * limit` or
  below, then set the gate again: returned with the gate open. -/
  | pausedThenResumed
  /-- Cleared the gate, then a sample raised inside the polling loop; the
  exception is caught by the outer `except`, and the call returns with the
  gate still cleared (closed). -/
  | pausedStuckClosed
  /-- Cleared the gate and the sample trace was exhausted while usage was
  still above `0.8 * limit`: the call is still inside the polling loop. -/
  | pausedForever
deriving DecidableEq, Repr

/-- The `while memory_mb > self.memory_limit_mb * 0.8` polling loop, entered
with the gate already cleared and `m` the current reading. -/
def pollLoop (limit : ℚ) : ℚ → List (Except Unit ℚ) → MemCheckResult
  | m, [] =>
    if m ≤ limit * (4 / 5) then MemCheckResult.pausedThenResumed
    else MemCheckResult.pausedForever
  | m, Except.error _ :: _ =>
    if m ≤ limit * (4 / 5) then MemCheckResult.pausedThenResumed
    else MemCheckResult.pausedStuckClosed
  | m, Except.ok m2 :: rest =>
    if m ≤ limit * (4 / 5) then MemCheckResult.pausedThenResumed
    else pollLoop limit m2 rest

/-- Method `_check_memory` of BatchProcessor: returns immediately when psutil is
missing; otherwise takes the initial sample (a raise is caught, gate
untouched), and when it exceeds the limit clears the gate and enters the
polling loop. -/
def check_memory (hasPsutil : Bool) (limit : ℚ)
    (samples : List (Except Unit ℚ)) : MemCheckResult :=
  if hasPsutil then
    match samples with
    | [] => MemCheckResult.noPause
    | Except.error _ :: _ => MemCheckResult.noPause
    | Except.ok m :: rest =>
      if m > limit then pollLoop limit m rest else MemCheckResult.noPause
  else
    MemCheckResult.noPause

/-- Did the call ever close the dispatch gate (throttle dispatch)? -/
def pausesDispatch : MemCheckResult → Bool
  | MemCheckResult.noPause => false
  | _ => true

/-- Is the dispatch gate open once the call is over (given it was open
before the call)? -/
def leavesGateOpen : MemCheckResult → Bool
  | MemCheckResult.noPause => true
  | MemCheckResult.pausedThenResumed => true
  | MemCheckResult.pausedStuckClosed => false
  | MemCheckResult.pausedForever => false

/-- Function `get_current_memory_mb` from `src/utils/memory_manager.py`: returns the
sampled usage in MB, or the `0.0` sentinel when psutil is missing or the
sample raises. -/
def get_current_memory_mb (hasPsutil : Bool) (sample : Except Unit ℚ) : ℚ :=
  if hasPsutil then
    match sample with
    | Except.ok m => m
    | Except.error _ => 0
  else 0

/-! ### The run (`BatchProcessor.process_batch`)

Items are paired with their index by `enumerate`; the submission loop skips
item `i` when `resume and i < self.progress.completed` (with the initial
`completed`, since the completion loop has not yet run when submission
happens). The completion loop then folds the per-future handler over the
completion order, an arbitrary permutation of the dispatched items. -/

section Run

variable {α β : Type}

/-- Python `enumerate(items)`, started at index `n`. -/
def enumerate (n : Nat) : List α → List (Nat × α)
  | [] => []
  | a :: l => (n, a) :: enumerate (n + 1) l

/-- The items submitted to the executor: those not skipped by
`if resume and i < self.progress.completed: continue`. -/
def dispatched (resume : Bool) (completed0 : Nat) (items : List α) :
    List (Nat × α) :=
  (enumerate 0 items).filter fun x => !(resume && decide (x.1 < completed0))

/-- Step 1 of `process_batch`: load the checkpoint when `resume` is set and
the progress file exists, else a fresh RUNNING state over `len(items)`. -/
def initProgress (nItems : Nat) (resume : Bool) (file : CkptFile)
    (startNow : String) : BatchProgress :=
  if resume && file.isSome then load_progress file
  else { total := nItems, start_time := some startNow, status := statusRunning }

/-- The dispatched items of a run, as determined by its inputs. -/
def dispatchOf (items : List α) (resume : Bool) (file : CkptFile)
    (startNow : String) : List (Nat × α) :=
  dispatched resume (initProgress items.length resume file startNow).completed items

/-- The per-completion handler: `future.result()` re-raises an item failure,
which the `except` branch folds into the counters and `failed_items`
(`str(item)` is `toStr`); a success bumps `completed` and `success`. -/
def stepItem (toStr : α → String) (f : α → Except String β)
    (p : BatchProgress) (x : Nat × α) : BatchProgress :=
  match f x.2 with
  | Except.ok _ => { p with completed := p.completed + 1, success := p.success + 1 }
  | Except.error e =>
    { p with
        completed := p.completed + 1
        failed := p.failed + 1
        failed_items := p.failed_items ++ [⟨x.1, toStr x.2, e⟩] }

/-- The completion loop, folded over the completion order. -/
def loopProgress (toStr : α → String) (f : α → Except String β) :
    BatchProgress → List (Nat × α) → BatchProgress
  | p, [] => p
  | p, x :: l => loopProgress toStr f (stepItem toStr f p x) l

/-- The `results` list: the successful values, in completion order. -/
def loopResults (f : α → Except String β) (order : List (Nat × α)) : List β :=
  order.filterMap fun x => (f x.2).toOption

/-- The `finally` block: set `end_time`, set `status` to CANCELLED or
COMPLETED, perform the final checkpoint save. -/
def finalizeProgress (p : BatchProgress) (cancelled : Bool)
    (endNow : String) : BatchProgress :=
  { p with
      end_time := some endNow
      status := if cancelled then statusCancelled else statusCompleted }

/-- What `process_batch` returns, plus the final content of the progress
file (the `finally` save overwrites any periodic checkpoint). -/
structure RunOutcome (β : Type) where
  results : List β
  progress : BatchProgress
  successFlag : Bool
  savedCkpt : PyDict
deriving Repr

/-- Method `process_batch items process_func resume` of BatchProcessor, for a run in
which no concurrent `cancel()` happens (`_cancelled` stays `False`).
`order` is the completion order of the dispatched futures, `startNow` and
`endNow` the two `datetime.now().isoformat()` readings. -/
def process_batch (toStr : α → String) (f : α → Except String β)
    (items : List α) (resume : Bool) (file : CkptFile)
    (order : List (Nat × α)) (startNow endNow : String) : RunOutcome β :=
  let p0 := initProgress items.length resume file startNow
  let p1 := loopProgress toStr f p0 order
  let pf := finalizeProgress p1 false endNow
  { results := loopResults f order
    progress := pf
    successFlag := pf.failed == 0
    savedCkpt := to_dict pf }

/-- Every `ProgressState` value the run passes through: the initial state,
the state after each completion, and the finalized state. -/
def runStatesAux (toStr : α → String) (f : α → Except String β)
    (endNow : String) : BatchProgress → List (Nat × α) → List BatchProgress
  | p, [] => [p, finalizeProgress p false endNow]
  | p, x :: l => p :: runStatesAux toStr f endNow (stepItem toStr f p x) l

/-- The reachable `ProgressState` values of a run of `process_batch`. -/
def runStates (toStr : α → String) (f : α → Except String β)
    (items : List α) (resume : Bool) (file : CkptFile)
    (order : List (Nat × α)) (startNow endNow : String) : List BatchProgress :=
  runStatesAux toStr f endNow (initProgress items.length resume file startNow) order

/-- Test for a success result: `okB (f a)` says processing item `a`
returns normally. -/
def okB : Except String β → Bool
  | Except.ok _ => true
  | Except.error _ => false

/-- The `failed_items` entries a list of completions contributes. -/
def errEntries (toStr : α → String) (f : α → Except String β)
    (order : List (Nat × α)) : List FailedItem :=
  order.filterMap fun x =>
    match f x.2 with
    | Except.ok _ => none
    | Except.error e => some ⟨x.1, toStr x.2, e⟩

/-- Componentwise order on the four counters. -/
def counterLe (a b : BatchProgress) : Prop :=
  a.completed ≤ b.completed ∧ a.success ≤ b.success ∧
    a.failed ≤ b.failed ∧ a.skipped ≤ b.skipped

end Run

/-- The two counter identities the data model maintains:
`completed == success + failed` and `failed == len(failed_items)`. -/
def coreInv (p : BatchProgress) : Prop :=
  p.completed = p.success + p.failed ∧ p.failed = p.failed_items.length

section Lemmas

variable {α β : Type} (toStr : α → String) (f : α → Except String β)

theorem countP_add_countP_not {γ : Type} (q : γ → Bool) (l : List γ) :
    l.countP q + l.countP (fun a => !q a) = l.length := by
  induction l with
  | nil => rfl
  | cons x l ih =>
    rw [List.countP_cons, List.countP_cons]
    cases h : q x <;> simp [h] <;> omega

theorem stepItem_total (p : BatchProgress) (x : Nat × α) :
    (stepItem toStr f p x).total = p.total := by
  cases h : f x.2 <;> simp [stepItem, h]

theorem stepItem_completed (p : BatchProgress) (x : Nat × α) :
    (stepItem toStr f p x).completed = p.completed + 1 := by
  cases h : f x.2 <;> simp [stepItem, h]

theorem stepItem_skipped (p : BatchProgress) (x : Nat × α) :
    (stepItem toStr f p x).skipped = p.skipped := by
  cases h : f x.2 <;> simp [stepItem, h]

theorem stepItem_status (p : BatchProgress) (x : Nat × α) :
    (stepItem toStr f p x).status = p.status := by
  cases h : f x.2 <;> simp [stepItem, h]

theorem stepItem_start_time (p : BatchProgress) (x : Nat × α) :
    (stepItem toStr f p x).start_time = p.start_time := by
  cases h : f x.2 <;> simp [stepItem, h]

theorem stepItem_end_time (p : BatchProgress) (x : Nat × α) :
    (stepItem toStr f p x).end_time = p.end_time := by
  cases h : f x.2 <;> simp [stepItem, h]

theorem stepItem_success (p : BatchProgress) (x : Nat × α) :
    (stepItem toStr f p x).success =
      p.success + (if okB (f x.2) then 1 else 0) := by
  cases h : f x.2 <;> simp [stepItem, okB, h]

theorem stepItem_failed (p : BatchProgress) (x : Nat × α) :
    (stepItem toStr f p x).failed =
      p.failed + (if okB (f x.2) then 0 else 1) := by
  cases h : f x.2 <;> simp [stepItem, okB, h]

theorem stepItem_failed_items (p : BatchProgress) (x : Nat × α) :
    (stepItem toStr f p x).failed_items =
      p.failed_items ++ errEntries toStr f [x] := by
  cases h : f x.2 <;> simp [stepItem, errEntries, h]

theorem loopProgress_total (l : List (Nat × α)) (p : BatchProgress) :
    (loopProgress toStr f p l).total = p.total := by
  induction l generalizing p with
  | nil => rfl
  | cons x l ih => rw [loopProgress, ih, stepItem_total]

theorem loopProgress_completed (l : List (Nat × α)) (p : BatchProgress) :
    (loopProgress toStr f p l).completed = p.completed + l.length := by
  induction l generalizing p with
  | nil => rfl
  | cons x l ih =>
    rw [loopProgress, ih, stepItem_completed, List.length_cons]
    omega

theorem loopProgress_skipped (l : List (Nat × α)) (p : BatchProgress) :
    (loopProgress toStr f p l).skipped = p.skipped := by
  induction l generalizing p with
  | nil => rfl
  | cons x l ih => rw [loopProgress, ih, stepItem_skipped]

theorem loopProgress_status (l : List (Nat × α)) (p : BatchProgress) :
    (loopProgress toStr f p l).status = p.status := by
  induction l generalizing p with
  | nil => rfl
  | cons x l ih => rw [loopProgress, ih, stepItem_status]

theorem loopProgress_start_time (l : List (Nat × α)) (p : BatchProgress) :
    (loopProgress toStr f p l).start_time = p.start_time := by
  induction l generalizing p with
  | nil => rfl
  | cons x l ih => rw [loopProgress, ih, stepItem_start_time]

theorem loopProgress_end_time (l : List (Nat × α)) (p : BatchProgress) :
    (loopProgress toStr f p l).end_time = p.end_time := by
  induction l generalizing p with
  | nil => rfl
  | cons x l ih => rw [loopProgress, ih, stepItem_end_time]

theorem loopProgress_success (l : List (Nat × α)) (p : BatchProgress) :
    (loopProgress toStr f p l).success =
      p.success + l.countP (fun x => okB (f x.2)) := by
  induction l generalizing p with
  | nil => rfl
  | cons x l ih =>
    rw [loopProgress, ih, stepItem_success, List.countP_cons]
    cases h : okB (f x.2) <;> simp [h] <;> omega

theorem loopProgress_failed (l : List (Nat × α)) (p : BatchProgress) :
    (loopProgress toStr f p l).failed =
      p.failed + l.countP (fun x => !okB (f x.2)) := by
  induction l generalizing p with
  | nil => rfl
  | cons x l ih =>
    rw [loopProgress, ih, stepItem_failed, List.countP_cons]
    cases h : okB (f x.2) <;> simp [h] <;> omega

theorem loopProgress_failed_items (l : List (Nat × α)) (p : BatchProgress) :
    (loopProgress toStr f p l).failed_items =
      p.failed_items ++ errEntries toStr f l := by
  induction l generalizing p with
  | nil => simp [loopProgress, errEntries]
  | cons x l ih =>
    rw [loopProgress, ih, stepItem_failed_items]
    cases h : f x.2 <;> simp [errEntries, h]

theorem errEntries_length (l : List (Nat × α)) :
    (errEntries toStr f l).length = l.countP (fun x => !okB (f x.2)) := by
  induction l with
  | nil => rfl
  | cons x l ih =>
    rw [errEntries, List.filterMap_cons, List.countP_cons]
    cases h : f x.2 <;> simp [okB, h, errEntries] at ih ⊢ <;> omega

theorem errEntries_eq_nil (l : List (Nat × α))
    (h : ∀ x ∈ l, okB (f x.2) = true) : errEntries toStr f l = [] := by
  rw [errEntries, List.filterMap_eq_nil_iff]
  intro x hx
  have := h x hx
  cases hfx : f x.2 <;> simp [okB, hfx] at this ⊢

theorem enumerate_length (n : Nat) (items : List α) :
    (enumerate n items).length = items.length := by
  induction items generalizing n with
  | nil => rfl
  | cons a l ih => simp [enumerate, ih]

theorem enumerate_mem (n : Nat) (items : List α) (x : Nat × α)
    (hx : x ∈ enumerate n items) :
    ∃ j, ∃ hj : j < items.length, x = (n + j, items.get ⟨j, hj⟩) := by
  induction items generalizing n with
  | nil => simp [enumerate] at hx
  | cons a l ih =>
    rw [enumerate, List.mem_cons] at hx
    rcases hx with h | h
    · exact ⟨0, by simp, by simpa using h⟩
    · obtain ⟨j, hj, hx⟩ := ih (n + 1) h
      exact ⟨j + 1, by simpa using hj, by simp [hx]; omega⟩

theorem dispatched_false (c : Nat) (items : List α) :
    dispatched false c items = enumerate 0 items := by
  simp [dispatched]

theorem dispatched_zero (r : Bool) (items : List α) :
    dispatched r 0 items = enumerate 0 items := by
  simp [dispatched]

theorem dispatched_all_done (c : Nat) (items : List α)
    (h : ∀ x ∈ enumerate 0 items, x.1 < c) :
    dispatched true c items = [] := by
  rw [dispatched, List.filter_eq_nil_iff]
  intro x hx
  simp [h x hx]

theorem from_dict_to_dict (p : BatchProgress) :
    from_dict (to_dict p) = Except.ok p := rfl

theorem initProgress_resume_ok (n : Nat) (p : BatchProgress) (s : String) :
    initProgress n true (some (Except.ok (to_dict p))) s = p := rfl

theorem dispatchOf_false (items : List α) (file : CkptFile) (s : String) :
    dispatchOf items false file s = enumerate 0 items := by
  simp [dispatchOf, initProgress, dispatched]

theorem dispatchOf_corrupt (items : List α) (s : String) :
    dispatchOf items true (some (Except.error ())) s = enumerate 0 items := by
  simp [dispatchOf, initProgress, load_progress, dispatched]

theorem dispatchOf_done (items : List α) (p : BatchProgress) (s : String)
    (hc : items.length ≤ p.completed) :
    dispatchOf items true (some (Except.ok (to_dict p))) s = [] := by
  rw [dispatchOf, initProgress_resume_ok]
  apply dispatched_all_done
  intro x hx
  obtain ⟨j, hj, hxeq⟩ := enumerate_mem 0 items x hx
  rw [hxeq]
  simpa using lt_of_lt_of_le hj hc

theorem finalize_counters (p : BatchProgress) (c : Bool) (e : String) :
    (finalizeProgress p c e).total = p.total ∧
      (finalizeProgress p c e).completed = p.completed ∧
      (finalizeProgress p c e).success = p.success ∧
      (finalizeProgress p c e).failed = p.failed ∧
      (finalizeProgress p c e).skipped = p.skipped ∧
      (finalizeProgress p c e).failed_items = p.failed_items ∧
      (finalizeProgress p c e).start_time = p.start_time := by
  simp [finalizeProgress]

theorem coreInv_step (p : BatchProgress) (x : Nat × α)
    (hp : coreInv p) : coreInv (stepItem toStr f p x) := by
  obtain ⟨h1, h2⟩ := hp
  cases h : f x.2 <;> simp [stepItem, h, coreInv] <;> omega

theorem coreInv_finalize (p : BatchProgress) (c : Bool) (e : String)
    (hp : coreInv p) : coreInv (finalizeProgress p c e) := by
  obtain ⟨h1, h2⟩ := hp
  exact ⟨by simpa [finalizeProgress] using h1, by simpa [finalizeProgress] using h2⟩

theorem runStatesAux_core (e : String) (l : List (Nat × α)) (p : BatchProgress)
    (hp : coreInv p) : ∀ q ∈ runStatesAux toStr f e p l, coreInv q := by
  induction l generalizing p with
  | nil =>
    intro q hq
    rw [runStatesAux] at hq
    simp only [List.mem_cons, List.not_mem_nil, or_false] at hq
    rcases hq with hq | hq
    · exact hq ▸ hp
    · exact hq ▸ coreInv_finalize p false e hp
  | cons x l ih =>
    intro q hq
    rw [runStatesAux, List.mem_cons] at hq
    rcases hq with hq | hq
    · exact hq ▸ hp
    · exact ih (stepItem toStr f p x) (coreInv_step toStr f p x hp) q hq

theorem runStatesAux_completed_le (e : String) (l : List (Nat × α))
    (p : BatchProgress) (hb : p.completed + l.length ≤ p.total) :
    ∀ q ∈ runStatesAux toStr f e p l, q.completed ≤ q.total := by
  induction l generalizing p with
  | nil =>
    intro q hq
    rw [runStatesAux] at hq
    simp only [List.mem_cons, List.not_mem_nil, or_false] at hq
    rcases hq with hq | hq
    · subst hq; simpa using hb
    · subst hq; simpa [finalizeProgress] using hb
  | cons x l ih =>
    intro q hq
    rw [runStatesAux, List.mem_cons] at hq
    rcases hq with hq | hq
    · subst hq; simp at hb; omega
    · refine ih (stepItem toStr f p x) ?_ q hq
      rw [stepItem_completed, stepItem_total]
      simp at hb
      omega

theorem runStatesAux_head (e : String) (l : List (Nat × α)) (p : BatchProgress) :
    (runStatesAux toStr f e p l).head? = some p := by
  cases l <;> rfl

theorem counterLe_stepItem (p : BatchProgress) (x : Nat × α) :
    counterLe p (stepItem toStr f p x) := by
  refine ⟨?_, ?_, ?_, ?_⟩ <;>
    simp [stepItem_completed, stepItem_success, stepItem_failed,
      stepItem_skipped]

theorem counterLe_finalize (p : BatchProgress) (c : Bool) (e : String) :
    counterLe p (finalizeProgress p c e) := by
  exact ⟨le_rfl, le_rfl, le_rfl, le_rfl⟩

theorem runStatesAux_chain (e : String) (l : List (Nat × α)) (p : BatchProgress) :
    List.Chain' counterLe (runStatesAux toStr f e p l) := by
  induction l generalizing p with
  | nil =>
    rw [runStatesAux]
    exact List.chain'_pair.mpr (counterLe_finalize p false e)
  | cons x l ih =>
    rw [runStatesAux]
    refine List.chain'_cons'.mpr ⟨?_, ih (stepItem toStr f p x)⟩
    intro y hy
    rw [runStatesAux_head] at hy
    cases hy
    exact counterLe_stepItem toStr f p x

theorem errEntries_cons_ok (x : Nat × α) (l : List (Nat × α))
    (h : okB (f x.2) = true) :
    errEntries toStr f (x :: l) = errEntries toStr f l := by
  rw [errEntries, List.filterMap_cons, errEntries]
  cases hfx : f x.2 <;> simp [okB, hfx] at h ⊢

theorem errEntries_cons_err (x : Nat × α) (l : List (Nat × α)) (e : String)
    (h : f x.2 = Except.error e) :
    errEntries toStr f (x :: l) =
      ⟨x.1, toStr x.2, e⟩ :: errEntries toStr f l := by
  rw [errEntries, List.filterMap_cons, errEntries, h]

theorem errEntries_single (n : Nat) (items : List α) (k : Nat) (e : String)
    (hk : k < items.length)
    (hfail : f (items.get ⟨k, hk⟩) = Except.error e)
    (hok : ∀ j, ∀ hj : j < items.length, j ≠ k →
      okB (f (items.get ⟨j, hj⟩)) = true) :
    errEntries toStr f (enumerate n items) =
      [⟨n + k, toStr (items.get ⟨k, hk⟩), e⟩] := by
  induction items generalizing n k with
  | nil => simp at hk
  | cons a t ih =>
    cases k with
    | zero =>
      have ha : f a = Except.error e := hfail
      rw [enumerate, errEntries_cons_err toStr f _ _ e ha]
      have htail : errEntries toStr f (enumerate (n + 1) t) = [] := by
        apply errEntries_eq_nil
        intro x hx
        obtain ⟨j, hj, hxeq⟩ := enumerate_mem (n + 1) t x hx
        have hj' : j + 1 < (a :: t).length := by simpa using hj
        have := hok (j + 1) hj' (by omega)
        rw [hxeq]
        exact this
      rw [htail]
      simp
    | succ k' =>
      have hk' : k' < t.length := by simpa using hk
      have ha : okB (f a) = true := hok 0 (by simp) (by omega)
      rw [enumerate, errEntries_cons_ok toStr f _ _ ha]
      have hfail' : f (t.get ⟨k', hk'⟩) = Except.error e := hfail
      have hok' : ∀ j, ∀ hj : j < t.length, j ≠ k' →
          okB (f (t.get ⟨j, hj⟩)) = true := by
        intro j hj hne
        have hj' : j + 1 < (a :: t).length := by simpa using hj
        exact hok (j + 1) hj' (by omega)
      rw [ih (n + 1) k' hk' hfail' hok']
      have harith : n + 1 + k' = n + (k' + 1) := by omega
      rw [harith]
      simp

theorem finalize_of_completed (p : BatchProgress) (e : String)
    (h : p.status = statusCompleted) :
    finalizeProgress p false e = { p with end_time := some e } := by
  cases p
  simp only [finalizeProgress, Bool.false_eq_true, if_false]
  simp only [BatchProgress.mk.injEq, and_true, true_and]
  simpa using h.symm

theorem pausesDispatch_pollLoop (limit : ℚ) (m : ℚ)
    (samples : List (Except Unit ℚ)) :
    pausesDispatch (pollLoop limit m samples) = true := by
  induction samples generalizing m with
  | nil => rw [pollLoop]; split <;> rfl
  | cons s rest ih =>
    cases s with
    | error u => rw [pollLoop]; split <;> rfl
    | ok m2 =>
      rw [pollLoop]
      split
      · rfl
      · exact ih m2

end Lemmas

/-! ### The claims -/

/-- C10: `completion_percentage` and `success_rate` are total: the former
returns `0.0` when `total == 0` and `(completed / total) * 100` otherwise,
the latter returns `0.0` when `completed == 0` and
`(success / completed) * 100` otherwise, so neither divides by zero. -/
theorem claim_c10_rates_total : ∀ p : BatchProgress,
    (p.total = 0 → completion_percentage p = 0) ∧
    (p.total ≠ 0 →
      completion_percentage p = ((p.completed : ℚ) / (p.total : ℚ)) * 100) ∧
    (p.completed = 0 → success_rate p = 0) ∧
    (p.completed ≠ 0 →
      success_rate p = ((p.success : ℚ) / (p.completed : ℚ)) * 100) := by
  intro p
  refine ⟨?_, ?_, ?_, ?_⟩ <;> intro h <;>
    simp [completion_percentage, success_rate, h]

/-- C8 counterexample: the claim says every checkpoint save is a
write-to-temporary-then-rename; the save of a fresh `BatchProgress()` at the
default progress path is a direct overwrite, so the claim fails there. -/
theorem claim_c8_counterexample :
    isAtomicWrite (save_progress BATCH_PROGRESS_FILE {}) = false := rfl

/-- C8 (amended): every checkpoint save writes the serialized ProgressState
directly to the progress file in a single overwrite; no temporary location
plus rename is used (the specification itself flags this: atomic
write-then-rename is a mandated hardening that the source does not have). -/
theorem claim_c8_direct_write : ∀ (path : String) (p : BatchProgress),
    save_progress path p = FileWrite.direct path (to_dict p) ∧
    isAtomicWrite (save_progress path p) = false := by
  intro path p
  exact ⟨rfl, rfl⟩

/-- C7: a checkpoint dict with every ProgressState field present plus one
unknown key is not loaded with the unknown key ignored: `cls(**data)` raises
a `TypeError`, `_load_progress` catches it and replaces the state with a
fresh `BatchProgress()` (total 0), discarding the known fields. -/
theorem claim_c7_extra_key_discards_checkpoint :
    from_dict
        { total := some 7, completed := some 7, success := some 6,
          failed := some 1, skipped := some 0,
          start_time := some (some ("t0")), end_time := some (some ("t1")),
          status := some statusCompleted,
          failed_items := some [⟨3, "x", "boom"⟩],
          extraKeys := ["schema_version"] } =
      Except.error unexpectedKeywordMsg ∧
    load_progress
        (some (Except.ok
          { total := some 7, completed := some 7, success := some 6,
            failed := some 1, skipped := some 0,
            start_time := some (some ("t0")), end_time := some (some ("t1")),
            status := some statusCompleted,
            failed_items := some [⟨3, "x", "boom"⟩],
            extraKeys := ["schema_version"] })) = {} ∧
    ({} : BatchProgress).total = 0 ∧ ({} : BatchProgress).completed = 0 := by
  refine ⟨?_, ?_, rfl, rfl⟩ <;> rfl

/-- C9 counterexample: the claim says that in every run in which sampling
raises, no throttling is applied and the dispatch gate is left open; but
when the first sample is over the limit (3000 over 2000) and the sample
taken inside the polling loop raises, the exception is caught with the gate
still cleared: the call returns with the gate closed. -/
theorem claim_c9_counterexample :
    leavesGateOpen (check_memory true 2000 [Except.ok 3000, Except.error ()])
      = false := by
  norm_num [check_memory, pollLoop, leavesGateOpen]

/-- C9 (amended): the memory check never raises out of the run loop (it is a
total function of the sample trace), and it fails open whenever the failure
happens before any throttling is engaged: with psutil unavailable, or with
the initial sample raising, the check returns without touching the dispatch
gate; `get_current_memory_mb` returns the `0.0` sentinel on any sampling
failure. (A sample raising inside the over-limit polling loop, however,
leaves the gate closed — see the counterexample.) -/
theorem claim_c9_fail_open :
    ∀ (limit : ℚ) (samples rest : List (Except Unit ℚ)) (s : Except Unit ℚ),
      check_memory false limit samples = MemCheckResult.noPause ∧
      check_memory true limit (Except.error () :: rest) =
        MemCheckResult.noPause ∧
      get_current_memory_mb true (Except.error ()) = 0 ∧
      get_current_memory_mb false s = 0 := by
  intro limit samples rest s
  exact ⟨rfl, rfl, rfl, rfl⟩

/-- C6 counterexample: the claim says `memory_limit_mb == 0` disables memory
throttling, so the memory check never pauses dispatch regardless of the
sampled usage; but a processor built with `memory_limit_mb = 0` gets the
default limit 2000, and a sampled usage of 3000 pauses dispatch. -/
theorem claim_c6_counterexample :
    initMemoryLimit (some 0) = 2000 ∧
    pausesDispatch
        (check_memory true ((initMemoryLimit (some 0) : Nat) : ℚ)
          [Except.ok 3000, Except.ok 100]) = true := by
  refine ⟨rfl, ?_⟩
  norm_num [check_memory, pollLoop, initMemoryLimit, BATCH_MEMORY_LIMIT_MB,
    pausesDispatch]

/-- C6 (amended): constructing a BatchProcessor with `memory_limit_mb == 0`
does not disable memory throttling: the Python `or`-default makes the limit
`BATCH_MEMORY_LIMIT_MB = 2000`, and the memory check pauses dispatch exactly
when the sampled usage exceeds 2000. -/
theorem claim_c6_zero_limit_uses_default :
    initMemoryLimit (some 0) = BATCH_MEMORY_LIMIT_MB ∧
    initMemoryLimit (some 0) = 2000 ∧
    ∀ (m : ℚ) (rest : List (Except Unit ℚ)),
      pausesDispatch
          (check_memory true ((initMemoryLimit (some 0) : Nat) : ℚ)
            (Except.ok m :: rest)) = true ↔ (2000 : ℚ) < m := by
  refine ⟨rfl, rfl, ?_⟩
  intro m rest
  have hL : ((initMemoryLimit (some 0) : Nat) : ℚ) = 2000 := by
    norm_num [initMemoryLimit, BATCH_MEMORY_LIMIT_MB]
  rw [hL]
  by_cases hm : (2000 : ℚ) < m
  · simp [check_memory, hm, pausesDispatch_pollLoop]
  · simp [check_memory, hm, pausesDispatch]


/-- The returned progress of a run is the finalized loop state. -/
theorem process_batch_progress {α β : Type} (toStr : α → String)
    (f : α → Except String β) (items : List α) (resume : Bool)
    (file : CkptFile) (order : List (Nat × α)) (s e : String) :
    (process_batch toStr f items resume file order s e).progress =
      finalizeProgress
        (loopProgress toStr f (initProgress items.length resume file s) order)
        false e := rfl

/-- A non-resume run starts from the fresh RUNNING state. -/
theorem initProgress_false (n : Nat) (file : CkptFile) (s : String) :
    initProgress n false file s =
      { total := n, start_time := some s, status := statusRunning } := rfl

/-- A resume whose checkpoint read fails starts from `BatchProgress()`. -/
theorem initProgress_corrupt (n : Nat) (s : String) :
    initProgress n true (some (Except.error ())) s = ({} : BatchProgress) := rfl

/-- C1: for every list of N items and a work function that never fails, a
non-resume `process_batch` run returns with `completed == total == N`,
`failed == 0`, `success == N`, `status == COMPLETED`, and the returned
success flag equals `failed == 0`, i.e. `True`. -/
theorem claim_c1_no_failures {α β : Type} (toStr : α → String)
    (f : α → Except String β) (items : List α) (file : CkptFile)
    (order : List (Nat × α)) (s e : String)
    (hok : ∀ a ∈ items, okB (f a) = true)
    (hperm : order.Perm (dispatchOf items false file s)) :
    (process_batch toStr f items false file order s e).progress.completed
        = items.length ∧
    (process_batch toStr f items false file order s e).progress.total
        = items.length ∧
    (process_batch toStr f items false file order s e).progress.failed = 0 ∧
    (process_batch toStr f items false file order s e).progress.success
        = items.length ∧
    (process_batch toStr f items false file order s e).progress.status
        = statusCompleted ∧
    (process_batch toStr f items false file order s e).successFlag
        = ((process_batch toStr f items false file order s e).progress.failed
            == 0) ∧
    (process_batch toStr f items false file order s e).successFlag = true := by
  have hlen : order.length = items.length := by
    rw [hperm.length_eq, dispatchOf_false, enumerate_length]
  have herr : order.countP (fun x => !okB (f x.2)) = 0 := by
    rw [hperm.countP_eq, dispatchOf_false, List.countP_eq_zero]
    intro x hx
    obtain ⟨j, hj, hxeq⟩ := enumerate_mem 0 items x hx
    have hmem : x.2 ∈ items := by rw [hxeq]; exact items.get_mem _ _
    simp [hok x.2 hmem]
  have hsucc : order.countP (fun x => okB (f x.2)) = items.length := by
    have h := countP_add_countP_not (fun x => okB (f x.2)) order
    omega
  have hfailed :
      (process_batch toStr f items false file order s e).progress.failed
        = 0 := by
    rw [process_batch_progress]
    simp [finalizeProgress, loopProgress_failed, initProgress_false, herr]
  refine ⟨?_, ?_, hfailed, ?_, ?_, rfl, ?_⟩
  · rw [process_batch_progress]
    simp [finalizeProgress, loopProgress_completed, initProgress_false, hlen]
  · rw [process_batch_progress]
    simp [finalizeProgress, loopProgress_total, initProgress_false]
  · rw [process_batch_progress]
    simp [finalizeProgress, loopProgress_success, initProgress_false, hsucc]
  · rw [process_batch_progress]
    simp [finalizeProgress]
  · have hflag :
        (process_batch toStr f items false file order s e).successFlag
          = ((process_batch toStr f items false file order s e).progress.failed
              == 0) := rfl
    rw [hflag, hfailed]
    rfl

/-- C1 witness: two items, a work function that always succeeds. -/
theorem claim_c1_witness :
    (process_batch (fun a => a) (fun _ => (Except.ok 3 : Except String Nat))
        ["a", "b"] false none
        (dispatchOf ["a", "b"] false none ("s")) ("s") ("e")).progress.completed
        = 2 ∧
    (process_batch (fun a => a) (fun _ => (Except.ok 3 : Except String Nat))
        ["a", "b"] false none
        (dispatchOf ["a", "b"] false none ("s")) ("s") ("e")).progress.total
        = 2 ∧
    (process_batch (fun a => a) (fun _ => (Except.ok 3 : Except String Nat))
        ["a", "b"] false none
        (dispatchOf ["a", "b"] false none ("s")) ("s") ("e")).progress.failed
        = 0 ∧
    (process_batch (fun a => a) (fun _ => (Except.ok 3 : Except String Nat))
        ["a", "b"] false none
        (dispatchOf ["a", "b"] false none ("s")) ("s") ("e")).progress.success
        = 2 ∧
    (process_batch (fun a => a) (fun _ => (Except.ok 3 : Except String Nat))
        ["a", "b"] false none
        (dispatchOf ["a", "b"] false none ("s")) ("s") ("e")).progress.status
        = statusCompleted ∧
    (process_batch (fun a => a) (fun _ => (Except.ok 3 : Except String Nat))
        ["a", "b"] false none
        (dispatchOf ["a", "b"] false none ("s")) ("s") ("e")).successFlag
        = ((process_batch (fun a => a)
            (fun _ => (Except.ok 3 : Except String Nat)) ["a", "b"] false none
            (dispatchOf ["a", "b"] false none ("s")) ("s") ("e")).progress.failed
            == 0) ∧
    (process_batch (fun a => a) (fun _ => (Except.ok 3 : Except String Nat))
        ["a", "b"] false none
        (dispatchOf ["a", "b"] false none ("s")) ("s") ("e")).successFlag
        = true :=
  claim_c1_no_failures (fun a => a) (fun _ => Except.ok 3) ["a", "b"] none
    (dispatchOf ["a", "b"] false none ("s")) ("s") ("e")
    (by intro a ha; rfl) (List.Perm.refl _)

/-- C5 counterexample: resume with an unreadable checkpoint file over one
item: the run finishes but its ProgressState is not that of a fresh run —
`total` is `0`, not `len(items) = 1`. -/
theorem claim_c5_counterexample :
    (process_batch (fun a => a) (fun _ => (Except.ok 0 : Except String Nat))
        ["a"] true (some (Except.error ()))
        (dispatchOf ["a"] true (some (Except.error ())) ("s")) ("s")
        ("e")).progress.total
      ≠ (["a"] : List String).length := by decide

/-- C5 (amended): when resume is requested and the checkpoint file exists
but reading or deserializing it fails, the run does start fresh rather than
aborting — it dispatches and processes all N items and reaches COMPLETED —
but its ProgressState is the default-constructed `BatchProgress()` updated
by the loop, not a fresh run state: `total` stays `0` (not `len(items)`)
and `start_time` stays unset. -/
theorem claim_c5_corrupt_resume_runs_fresh {α β : Type} (toStr : α → String)
    (f : α → Except String β) (items : List α) (order : List (Nat × α))
    (s e : String)
    (hperm : order.Perm (dispatchOf items true (some (Except.error ())) s)) :
    dispatchOf items true (some (Except.error ())) s = enumerate 0 items ∧
    (process_batch toStr f items true (some (Except.error ())) order s
        e).progress.completed = items.length ∧
    (process_batch toStr f items true (some (Except.error ())) order s
        e).progress.status = statusCompleted ∧
    (process_batch toStr f items true (some (Except.error ())) order s
        e).progress.total = 0 ∧
    (process_batch toStr f items true (some (Except.error ())) order s
        e).progress.start_time = none := by
  have hlen : order.length = items.length := by
    rw [hperm.length_eq, dispatchOf_corrupt, enumerate_length]
  refine ⟨dispatchOf_corrupt items s, ?_, ?_, ?_, ?_⟩
  · rw [process_batch_progress]
    simp [finalizeProgress, loopProgress_completed, initProgress_corrupt, hlen]
  · rw [process_batch_progress]
    simp [finalizeProgress]
  · rw [process_batch_progress]
    simp [finalizeProgress, loopProgress_total, initProgress_corrupt]
  · rw [process_batch_progress]
    simp [finalizeProgress, loopProgress_start_time, initProgress_corrupt]

/-- C5 witness: one item, resume from an unreadable checkpoint. -/
theorem claim_c5_witness :
    dispatchOf ["a"] true (some (Except.error ())) ("s")
        = enumerate 0 ["a"] ∧
    (process_batch (fun a => a) (fun _ => (Except.ok 0 : Except String Nat))
        ["a"] true (some (Except.error ()))
        (dispatchOf ["a"] true (some (Except.error ())) ("s")) ("s")
        ("e")).progress.completed = 1 ∧
    (process_batch (fun a => a) (fun _ => (Except.ok 0 : Except String Nat))
        ["a"] true (some (Except.error ()))
        (dispatchOf ["a"] true (some (Except.error ())) ("s")) ("s")
        ("e")).progress.status = statusCompleted ∧
    (process_batch (fun a => a) (fun _ => (Except.ok 0 : Except String Nat))
        ["a"] true (some (Except.error ()))
        (dispatchOf ["a"] true (some (Except.error ())) ("s")) ("s")
        ("e")).progress.total = 0 ∧
    (process_batch (fun a => a) (fun _ => (Except.ok 0 : Except String Nat))
        ["a"] true (some (Except.error ()))
        (dispatchOf ["a"] true (some (Except.error ())) ("s")) ("s")
        ("e")).progress.start_time = none :=
  claim_c5_corrupt_resume_runs_fresh (fun a => a) (fun _ => Except.ok 0)
    ["a"] (dispatchOf ["a"] true (some (Except.error ())) ("s")) ("s") ("e")
    (List.Perm.refl _)


/-- C3: when exactly the item at index k fails and all others succeed, a
non-resume run captures the failure per item (nothing propagates out of
`process_batch` and no sibling is aborted: all N completions are folded in):
`failed == 1`, `failed_items` is exactly one entry with index k,
`success == N - 1`, `completed == N`. -/
theorem claim_c3_single_failure {α β : Type} (toStr : α → String)
    (f : α → Except String β) (items : List α) (file : CkptFile)
    (order : List (Nat × α)) (s e : String) (k : Nat) (errMsg : String)
    (hk : k < items.length)
    (hfail : f (items.get ⟨k, hk⟩) = Except.error errMsg)
    (hok : ∀ j, ∀ hj : j < items.length, j ≠ k →
      okB (f (items.get ⟨j, hj⟩)) = true)
    (hperm : order.Perm (dispatchOf items false file s)) :
    (process_batch toStr f items false file order s e).progress.failed = 1 ∧
    (process_batch toStr f items false file order s e).progress.failed_items
        = [⟨k, toStr (items.get ⟨k, hk⟩), errMsg⟩] ∧
    (process_batch toStr f items false file order s e).progress.success
        = items.length - 1 ∧
    (process_batch toStr f items false file order s e).progress.completed
        = items.length := by
  have hlen : order.length = items.length := by
    rw [hperm.length_eq, dispatchOf_false, enumerate_length]
  have hE : errEntries toStr f order
      = [⟨k, toStr (items.get ⟨k, hk⟩), errMsg⟩] := by
    have hpermE : (errEntries toStr f order).Perm
        (errEntries toStr f (dispatchOf items false file s)) :=
      hperm.filterMap _
    rw [dispatchOf_false] at hpermE
    have hsingle := errEntries_single toStr f 0 items k errMsg hk hfail hok
    rw [show (0 : Nat) + k = k by omega] at hsingle
    rw [hsingle] at hpermE
    exact List.perm_singleton.mp hpermE
  have herr : order.countP (fun x => !okB (f x.2)) = 1 := by
    rw [← errEntries_length toStr f order, hE]
    rfl
  have hsucc : order.countP (fun x => okB (f x.2)) = items.length - 1 := by
    have h := countP_add_countP_not (fun x => okB (f x.2)) order
    omega
  refine ⟨?_, ?_, ?_, ?_⟩
  · rw [process_batch_progress]
    simp [finalizeProgress, loopProgress_failed, initProgress_false, herr]
  · rw [process_batch_progress]
    simp [finalizeProgress, loopProgress_failed_items, initProgress_false, hE]
  · rw [process_batch_progress]
    simp [finalizeProgress, loopProgress_success, initProgress_false, hsucc]
  · rw [process_batch_progress]
    simp [finalizeProgress, loopProgress_completed, initProgress_false, hlen]

/-- C3 witness: three items, the one at index 1 fails. -/
theorem claim_c3_witness :
    (process_batch (fun a => a)
        (fun a => if a = "b" then Except.error ("boom")
          else (Except.ok 0 : Except String Nat))
        ["a", "b", "c"] false none
        (dispatchOf ["a", "b", "c"] false none ("s")) ("s")
        ("e")).progress.failed = 1 ∧
    (process_batch (fun a => a)
        (fun a => if a = "b" then Except.error ("boom")
          else (Except.ok 0 : Except String Nat))
        ["a", "b", "c"] false none
        (dispatchOf ["a", "b", "c"] false none ("s")) ("s")
        ("e")).progress.failed_items = [⟨1, "b", "boom"⟩] ∧
    (process_batch (fun a => a)
        (fun a => if a = "b" then Except.error ("boom")
          else (Except.ok 0 : Except String Nat))
        ["a", "b", "c"] false none
        (dispatchOf ["a", "b", "c"] false none ("s")) ("s")
        ("e")).progress.success = 2 ∧
    (process_batch (fun a => a)
        (fun a => if a = "b" then Except.error ("boom")
          else (Except.ok 0 : Except String Nat))
        ["a", "b", "c"] false none
        (dispatchOf ["a", "b", "c"] false none ("s")) ("s")
        ("e")).progress.completed = 3 :=
  claim_c3_single_failure (fun a => a)
    (fun a => if a = "b" then Except.error ("boom") else Except.ok 0)
    ["a", "b", "c"] none (dispatchOf ["a", "b", "c"] false none ("s"))
    ("s") ("e") 1 ("boom") (by decide) rfl
    (by
      intro j hj hne
      rcases j with _ | _ | _ | j
      · rfl
      · exact absurd rfl hne
      · rfl
      · simp only [List.length_cons, List.length_nil] at hj
        omega)
    (List.Perm.refl _)


/-- C2 counterexample: the claim asserts `completed <= total` in every state
reachable during a run of `process_batch`; but in a resume run whose
checkpoint file is unreadable, the loaded state falls back to
`BatchProgress()` with `total = 0`, and after one successful item the
reachable (and returned) state has `completed = 1 > 0 = total`. -/
theorem claim_c2_counterexample :
    (process_batch (fun a => a) (fun _ => (Except.ok 0 : Except String Nat))
        ["a"] true (some (Except.error ()))
        (dispatchOf ["a"] true (some (Except.error ())) ("s")) ("s")
        ("e")).progress
      ∈ runStates (fun a => a) (fun _ => (Except.ok 0 : Except String Nat))
        ["a"] true (some (Except.error ()))
        (dispatchOf ["a"] true (some (Except.error ())) ("s")) ("s") ("e") ∧
    ¬((process_batch (fun a => a) (fun _ => (Except.ok 0 : Except String Nat))
        ["a"] true (some (Except.error ()))
        (dispatchOf ["a"] true (some (Except.error ())) ("s")) ("s")
        ("e")).progress.completed
      ≤ (process_batch (fun a => a) (fun _ => (Except.ok 0 : Except String Nat))
        ["a"] true (some (Except.error ()))
        (dispatchOf ["a"] true (some (Except.error ())) ("s")) ("s")
        ("e")).progress.total) := by decide

/-- C2 (amended): in every state reachable during a non-resume run of
`process_batch`, `completed == success + failed`, `completed <= total` and
`failed == len(failed_items)` hold; and in every run (resume or not) the
counters completed, success, failed, skipped are monotonically
non-decreasing along the run. (In a resume run the loaded checkpoint can
break the equational invariants — see the counterexample.) -/
theorem claim_c2_invariants {α β : Type} (toStr : α → String)
    (f : α → Except String β) (items : List α) (resume : Bool)
    (file : CkptFile) (order : List (Nat × α)) (s e : String)
    (hperm : order.Perm (dispatchOf items resume file s)) :
    (resume = false →
      ∀ q ∈ runStates toStr f items resume file order s e,
        q.completed = q.success + q.failed ∧ q.completed ≤ q.total ∧
        q.failed = q.failed_items.length) ∧
    List.Chain' counterLe (runStates toStr f items resume file order s e) := by
  constructor
  · rintro rfl q hq
    have hlen : order.length = items.length := by
      rw [hperm.length_eq, dispatchOf_false, enumerate_length]
    have hinv : coreInv (initProgress items.length false file s) := ⟨rfl, rfl⟩
    have hbound :
        (initProgress items.length false file s).completed + order.length
          ≤ (initProgress items.length false file s).total := by
      rw [initProgress_false]
      simp [hlen]
    have h1 := runStatesAux_core toStr f e order _ hinv q hq
    have h2 := runStatesAux_completed_le toStr f e order _ hbound q hq
    exact ⟨h1.1, h2, h1.2⟩
  · exact runStatesAux_chain toStr f e order _

/-- C2 witness: a one-item non-resume run. -/
theorem claim_c2_witness :
    (false = false →
      ∀ q ∈ runStates (fun a => a)
          (fun _ => (Except.ok 0 : Except String Nat)) ["a"] false none
          (dispatchOf ["a"] false none ("s")) ("s") ("e"),
        q.completed = q.success + q.failed ∧ q.completed ≤ q.total ∧
        q.failed = q.failed_items.length) ∧
    List.Chain' counterLe
      (runStates (fun a => a) (fun _ => (Except.ok 0 : Except String Nat))
        ["a"] false none (dispatchOf ["a"] false none ("s")) ("s") ("e")) :=
  claim_c2_invariants (fun a => a) (fun _ => Except.ok 0) ["a"] false none
    (dispatchOf ["a"] false none ("s")) ("s") ("e") (List.Perm.refl _)


/-- C4 counterexample: the claim asserts the resume run returns the same
terminal ProgressState as the first run; here the resume run dispatches
zero items, yet its ProgressState differs from the first run: `end_time`
is overwritten with the resume run finish time ("e2" instead of "e1"). -/
theorem claim_c4_counterexample :
    dispatchOf ["a"] true
        (some (Except.ok
          (process_batch (fun a => a)
            (fun _ => (Except.ok 0 : Except String Nat)) ["a"] false none
            (dispatchOf ["a"] false none ("s1")) ("s1") ("e1")).savedCkpt))
        ("s2") = [] ∧
    (process_batch (fun a => a) (fun _ => (Except.ok 0 : Except String Nat))
        ["a"] true
        (some (Except.ok
          (process_batch (fun a => a)
            (fun _ => (Except.ok 0 : Except String Nat)) ["a"] false none
            (dispatchOf ["a"] false none ("s1")) ("s1") ("e1")).savedCkpt))
        [] ("s2") ("e2")).progress
      ≠ (process_batch (fun a => a)
          (fun _ => (Except.ok 0 : Except String Nat)) ["a"] false none
          (dispatchOf ["a"] false none ("s1")) ("s1") ("e1")).progress := by
  exact ⟨by decide, by decide⟩

/-- C4 (amended): after a non-resume run over `items` completes and its
final checkpoint (`completed == total`) is saved, a `resume=True` run over
the same items dispatches zero items (the work function is never invoked)
and returns the first run terminal ProgressState with only `end_time`
overwritten to the resume run finish time (all counters, `failed_items`,
`start_time` and the COMPLETED status are unchanged). -/
theorem claim_c4_resume_idempotent {α β : Type} (toStr : α → String)
    (f : α → Except String β) (items : List α) (file : CkptFile)
    (order1 order2 : List (Nat × α)) (s1 e1 s2 e2 : String)
    (h1 : order1.Perm (dispatchOf items false file s1))
    (h2 : order2.Perm (dispatchOf items true
      (some (Except.ok
        (process_batch toStr f items false file order1 s1 e1).savedCkpt))
      s2)) :
    dispatchOf items true
        (some (Except.ok
          (process_batch toStr f items false file order1 s1 e1).savedCkpt))
        s2 = [] ∧
    order2 = [] ∧
    (process_batch toStr f items true
        (some (Except.ok
          (process_batch toStr f items false file order1 s1 e1).savedCkpt))
        order2 s2 e2).progress
      = { (process_batch toStr f items false file order1 s1 e1).progress with
            end_time := some e2 } := by
  have hcomp :
      (process_batch toStr f items false file order1 s1 e1).progress.completed
        = items.length := by
    rw [process_batch_progress]
    simp [finalizeProgress, loopProgress_completed, initProgress_false,
      h1.length_eq, dispatchOf_false, enumerate_length]
  have hck : (process_batch toStr f items false file order1 s1 e1).savedCkpt
      = to_dict (process_batch toStr f items false file order1 s1 e1).progress :=
    rfl
  have hdisp : dispatchOf items true
      (some (Except.ok
        (process_batch toStr f items false file order1 s1 e1).savedCkpt))
      s2 = [] := by
    rw [hck]
    exact dispatchOf_done items _ s2 (le_of_eq hcomp.symm)
  have hord2 : order2 = [] := by
    rw [hdisp] at h2
    exact List.perm_nil.mp h2
  refine ⟨hdisp, hord2, ?_⟩
  subst hord2
  show finalizeProgress
      (process_batch toStr f items false file order1 s1 e1).progress false e2
    = { (process_batch toStr f items false file order1 s1 e1).progress with
          end_time := some e2 }
  exact finalize_of_completed _ e2 rfl

/-- C4 witness: a completed one-item run, then a resume run over the same
items and checkpoint. -/
theorem claim_c4_witness :
    dispatchOf ["a"] true
        (some (Except.ok
          (process_batch (fun a => a)
            (fun _ => (Except.ok 0 : Except String Nat)) ["a"] false none
            (dispatchOf ["a"] false none ("s1")) ("s1") ("e1")).savedCkpt))
        ("s2") = [] ∧
    ([] : List (Nat × String)) = [] ∧
    (process_batch (fun a => a) (fun _ => (Except.ok 0 : Except String Nat))
        ["a"] true
        (some (Except.ok
          (process_batch (fun a => a)
            (fun _ => (Except.ok 0 : Except String Nat)) ["a"] false none
            (dispatchOf ["a"] false none ("s1")) ("s1") ("e1")).savedCkpt))
        [] ("s2") ("e2")).progress
      = { (process_batch (fun a => a)
            (fun _ => (Except.ok 0 : Except String Nat)) ["a"] false none
            (dispatchOf ["a"] false none ("s1")) ("s1")
            ("e1")).progress with end_time := some ("e2") } :=
  claim_c4_resume_idempotent (fun a => a) (fun _ => Except.ok 0) ["a"] none
    (dispatchOf ["a"] false none ("s1")) [] ("s1") ("e1") ("s2") ("e2")
    (List.Perm.refl _)
    (by
      rw [show dispatchOf ["a"] true
          (some (Except.ok
            (process_batch (fun a => a)
              (fun _ => (Except.ok 0 : Except String Nat)) ["a"] false none
              (dispatchOf ["a"] false none ("s1")) ("s1") ("e1")).savedCkpt))
          ("s2") = [] by decide])

end PDFBatch
